import Mathlib

/-!
Verification development for the serverless-postgres-event repository.

The repository has two variants of the same plugin:
* a CloudFormation custom-resource provider (`provider/src/index.ts`,
  `provider/src/types.ts`, `provider/src/sql.ts`), and
* a deploy-time plugin that talks to the database directly
  (`src/index.ts`, `src/helpers.ts`).

Below, namespace `Provider` embeds the provider variant and namespace
`Plugin` embeds the deploy-time variant.  JavaScript strings are modelled
as `String`, optional / possibly-undefined values as `Option`, thrown
errors as `Except String`, and the effectful reconciliation handler as a
pure function that returns the list of externally visible actions
(database queries and CloudFormation responses) next to its final
result, parametrised by an oracle that decides which external calls fail.
-/

/-- The double-quote character (written via its code point). -/
def dqChar : Char := Char.ofNat 34

/-- The single-quote character (written via its code point). -/
def sqChar : Char := Char.ofNat 39

/-- JS truthiness of a `string | undefined` value: `undefined` and the
empty string are falsy, every other string is truthy. -/
def strTruthy : Option String → Bool
  | none => false
  | some s => s != ""

deriving instance DecidableEq for Except

/-- JS `s.split(sep)` for a single-character separator, at the character
level (structurally recursive, so concrete inputs evaluate in proofs). -/
def splitOnChar (sep : Char) : List Char → List (List Char)
  | [] => [[]]
  | c :: cs =>
    if c = sep then [] :: splitOnChar sep cs
    else
      match splitOnChar sep cs with
      | [] => [[c]]
      | h :: t => (c :: h) :: t

/-- Whether the first list is an initial segment of the second. -/
def startsWithList : List Char → List Char → Bool
  | [], _ => true
  | _ :: _, [] => false
  | p :: ps, c :: cs => p == c && startsWithList ps cs

/-- JS `s.indexOf(marker)` combined with `s.slice(idx + marker.length)`:
the suffix following the first occurrence of `marker`, or `none` when
the marker does not occur. -/
def afterFirstMarker (marker : List Char) : List Char → Option (List Char)
  | [] => if marker = [] then some [] else none
  | c :: cs =>
    if startsWithList marker (c :: cs) then some ((c :: cs).drop marker.length)
    else afterFirstMarker marker cs

/-- JS `s.trim()`: strip leading and trailing whitespace. -/
def jsTrim (s : String) : String :=
  ⟨((s.data.dropWhile Char.isWhitespace).reverse.dropWhile Char.isWhitespace).reverse⟩

namespace Provider

/-- `provider/src/types.ts`: the `DBProps` shape of the `Database`
resource property (`ConnectionString` is optional). -/
structure DBProps where
  ConnectionString : Option String
  Namespace : String
  RoleName : String
  FunctionName : String
  deriving DecidableEq, Repr

/-- The `columns` payload of a per-operation trigger flag: a single
string or an array of strings (`string | string[]`). -/
inductive Columns where
  | str (s : String)
  | arr (cs : List String)
  deriving DecidableEq, Repr

/-- An `update` / `delete` / `insert` presence flag with its optional
column list. -/
structure OpSpec where
  columns : Option Columns
  deriving DecidableEq, Repr

/-- Trigger ordering, `BEFORE | AFTER`. -/
inductive Order where
  | BEFORE
  | AFTER
  deriving DecidableEq, Repr

/-- Trigger granularity, `ROW | STATEMENT`. -/
inductive Level where
  | ROW
  | STATEMENT
  deriving DecidableEq, Repr

/-- `provider/src/types.ts`: the `TriggerProps` shape (legacy-style spec
with presence flags; every field but `table` is optional). -/
structure TriggerProps where
  table : String
  update : Option OpSpec := none
  delete : Option OpSpec := none
  insert : Option OpSpec := none
  order : Option Order := none
  level : Option Level := none
  deriving DecidableEq, Repr

/-- Rendering of an `Order` value, as it appears interpolated in
messages and SQL. -/
def orderToStr : Order → String
  | Order.BEFORE => "BEFORE"
  | Order.AFTER => "AFTER"

/-- Rendering of a `Level` value. -/
def levelToStr : Level → String
  | Level.ROW => "ROW"
  | Level.STATEMENT => "STATEMENT"

/-- `level.toLowerCase()` as used in the trigger DDL. -/
def levelLower : Level → String
  | Level.ROW => "row"
  | Level.STATEMENT => "statement"

/-- Character-level model of `id.replace` doubling every embedded double
quote (the JS regex replace acts independently on each character). -/
def escapeQuotes : List Char → List Char
  | [] => []
  | c :: cs => if c = dqChar then dqChar :: dqChar :: escapeQuotes cs else c :: escapeQuotes cs

/-- `provider/src/sql.ts` `qIdent`: wrap an identifier in double quotes,
doubling embedded double quotes. -/
def qIdent (id : String) : String := ⟨dqChar :: (escapeQuotes id.data ++ [dqChar])⟩

/-- Character-level model of `String(x).replace` doubling every embedded
single quote (used to build the ARN literal). -/
def escapeSingleQuotes : List Char → List Char
  | [] => []
  | c :: cs => if c = sqChar then sqChar :: sqChar :: escapeSingleQuotes cs else c :: escapeSingleQuotes cs

/-- Result of splitting a qualified table name. -/
structure QName where
  schema : String
  name : String
  deriving DecidableEq, Repr

/-- `provider/src/sql.ts` `splitQualifiedName`: if the input contains a
dot, split on every dot and destructure the first two components
(`const [schema, name] = qname.split(...)`), throwing when either is
falsy (JS: `undefined` or the empty string, both modelled by `""`);
otherwise default the schema to `public`. -/
def splitQualifiedName (qname : String) : Except String QName :=
  if qname.data.contains '.' then
    let parts := splitOnChar '.' qname.data
    let schema : String := ⟨parts.getD 0 []⟩
    let name : String := ⟨parts.getD 1 []⟩
    if schema = "" || name = "" then
      .error ("Invalid table qualified name: \x22" ++ qname ++ "\x22")
    else
      .ok ⟨schema, name⟩
  else
    .ok ⟨"public", qname⟩

/-- `provider/src/sql.ts` `lambdaNameFromArn`: everything after the first
occurrence of the `:function:` marker (`indexOf` + `slice`); if the
marker is absent, the last colon-separated segment
(`arn.split(...).pop()`), defaulting to `lambda` when that is falsy. -/
def lambdaNameFromArn (arn : String) : String :=
  match afterFirstMarker ":function:".data arn.data with
  | some tail => ⟨tail⟩
  | none =>
    let last : List Char := (splitOnChar ':' arn.data).getLastD []
    if last = [] then "lambda" else ⟨last⟩

/-- `provider/src/sql.ts` `buildTriggerName`: join the namespace and the
lambda name extracted from the second argument with an underscore. -/
def buildTriggerName (nsp targetArn : String) : String :=
  nsp ++ "_" ++ lambdaNameFromArn targetArn

/-- The error a JS runtime raises when `lambdaNameFromArn` is applied to
`undefined` (it immediately calls `.indexOf` on its argument). -/
def jsUndefinedArgError : String :=
  "TypeError: Cannot read properties of undefined (reading indexOf)"

/-- The JS-level call `buildTriggerName(namespace, x)` where `x` may be
`undefined` because a caller omitted the argument: with `undefined` the
body of `lambdaNameFromArn` throws a `TypeError` before producing a
name. -/
def buildTriggerNameJs (nsp : String) (fnName : Option String) : Except String String :=
  match fnName with
  | none => .error jsUndefinedArgError
  | some f => .ok (buildTriggerName nsp f)

/-- `provider/src/sql.ts` `buildOps`, before the final join: the `ops`
array, starting empty, pushing `INSERT` and `DELETE` for their presence
flags, pushing a possibly column-scoped `UPDATE` entry, and defaulting
to all three operations when nothing was requested. -/
def buildOpsList (tr : TriggerProps) : List String :=
  let ops : List String := []
  let ops := if tr.insert.isSome then ops ++ ["INSERT"] else ops
  let ops := if tr.delete.isSome then ops ++ ["DELETE"] else ops
  let ops :=
    match tr.update with
    | none => ops
    | some u =>
      match u.columns with
      | some (Columns.arr cs) =>
        if cs.length > 0 then
          ops ++ ["UPDATE OF " ++ String.intercalate ", " (cs.map qIdent)]
        else
          ops ++ ["UPDATE"]
      | some (Columns.str s) =>
        if jsTrim s != "" then ops ++ ["UPDATE OF " ++ qIdent s] else ops ++ ["UPDATE"]
      | none => ops ++ ["UPDATE"]
  if ops = [] then ["INSERT", "UPDATE", "DELETE"] else ops

/-- `provider/src/sql.ts` `buildOps`: the operations clause,
`ops.join(" OR ")`. -/
def buildOps (tr : TriggerProps) : String :=
  String.intercalate " OR " (buildOpsList tr)

/-- `provider/src/sql.ts` `sqlDropTrigger`. -/
def sqlDropTrigger (triggerName tblSchema tblName : String) : String :=
  "drop trigger if exists " ++ qIdent triggerName ++ " on " ++ qIdent tblSchema ++ "."
    ++ qIdent tblName ++ " cascade;"

/-- `provider/src/sql.ts` `sqlCreateTrigger`: defaults order to `AFTER`
and level to `ROW`, rejects anything other than `AFTER` + `ROW`, and only
then assembles the drop-and-create DDL template. -/
def sqlCreateTrigger (triggerName tblSchema tblName : String) (tr : TriggerProps)
    (nsp dbFnName targetArn : String) : Except String String :=
  let order := tr.order.getD Order.AFTER
  let level := tr.level.getD Level.ROW
  if order ≠ Order.AFTER then
    .error ("Only AFTER triggers are supported; got " ++ orderToStr order)
  else if level ≠ Level.ROW then
    .error ("Only ROW triggers are supported; got " ++ levelToStr level)
  else
    let ops := buildOps tr
    let whenClause := ""
    let arnLiteral : String := ⟨sqChar :: (escapeSingleQuotes targetArn.data ++ [sqChar])⟩
    .ok ("\n    drop trigger if exists " ++ qIdent triggerName ++ " on " ++ qIdent tblSchema
      ++ "." ++ qIdent tblName ++ " cascade;\n    create trigger " ++ qIdent triggerName
      ++ "\n    " ++ orderToStr order ++ " " ++ ops ++ " on " ++ qIdent tblSchema ++ "."
      ++ qIdent tblName ++ "\n    for each " ++ levelLower level ++ whenClause
      ++ "\n    execute function " ++ qIdent nsp ++ "." ++ qIdent dbFnName
      ++ "(" ++ arnLiteral ++ ");\n  ")

/-- `provider/src/sql.ts` `sqlCreatePrerequisites`: the idempotent
prerequisites template (extensions, role, grants, schema, invoker
function, ownership transfer). -/
def sqlCreatePrerequisites (roleName nsp lambdaInvokerFn : String) : String :=
  "\n  create extension if not exists pgcrypto;\n"
    ++ "  create extension if not exists aws_commons;\n"
    ++ "  create extension if not exists aws_lambda;\n\n"
    ++ "  do $$\n  begin\n"
    ++ "    if not exists (select 1 from pg_roles where rolname = \x27" ++ roleName
    ++ "\x27) then\n      create role " ++ qIdent roleName ++ " nologin;\n"
    ++ "    end if;\n  end $$;\n\n"
    ++ "  grant usage on schema aws_lambda, aws_commons to " ++ qIdent roleName ++ ";\n"
    ++ "  grant execute on all functions in schema aws_lambda to " ++ qIdent roleName ++ ";\n"
    ++ "  grant execute on all functions in schema aws_commons to " ++ qIdent roleName ++ ";\n\n"
    ++ "  create schema if not exists " ++ qIdent nsp ++ ";\n\n"
    ++ "  create or replace function " ++ qIdent nsp ++ "." ++ qIdent lambdaInvokerFn
    ++ "()\n  returns trigger\n  language plpgsql\n  security definer\n"
    ++ "  set search_path = " ++ qIdent nsp ++ ", pg_temp\n  as $$\n  declare\n"
    ++ "    arn text := tg_argv[0];\n"
    ++ "    payload jsonb := jsonb_build_object(\n"
    ++ "      \x27type\x27, tg_op,\n"
    ++ "      \x27schema\x27, tg_table_schema,\n"
    ++ "      \x27table\x27, tg_table_name,\n"
    ++ "      \x27record\x27, case when tg_op in (\x27INSERT\x27,\x27UPDATE\x27) then to_jsonb(new) else null end,\n"
    ++ "      \x27old_record\x27, case when tg_op in (\x27UPDATE\x27,\x27DELETE\x27) then to_jsonb(old) else null end\n"
    ++ "    );\n  begin\n"
    ++ "    perform aws_lambda.invoke(aws_commons.create_lambda_function_arn(arn), payload::json, \x27Event\x27);\n"
    ++ "    return null; -- AFTER triggers may return null\n  end;\n  $$;\n\n"
    ++ "  alter function " ++ qIdent nsp ++ "." ++ qIdent lambdaInvokerFn
    ++ "() owner to " ++ qIdent roleName ++ ";\n"

/-- The pure part of `provider/src/sql.ts` `createTrigger`, up to the
database call: split the qualified table name, derive the trigger name
from `db.Namespace` and `functionName` (which is `undefined` at the
handler call sites, hence the `Option`), and build the create DDL;
returns the derived name together with the SQL to execute. -/
def createTriggerSqlOp (db : DBProps) (trg : TriggerProps) (targetArn : String)
    (functionName : Option String) : Except String (String × String) := do
  let qn ← splitQualifiedName trg.table
  let triggerName ← buildTriggerNameJs db.Namespace functionName
  let sql ← sqlCreateTrigger triggerName qn.schema qn.name trg db.Namespace db.FunctionName targetArn
  return (triggerName, sql)

/-- The pure part of `provider/src/sql.ts` `dropTrigger`, up to the
database call: split the qualified table name, derive the trigger name
from `db.Namespace` and `functionName`, and build the drop DDL. -/
def dropTriggerSqlOp (db : DBProps) (trg : TriggerProps)
    (functionName : Option String) : Except String (String × String) := do
  let qn ← splitQualifiedName trg.table
  let triggerName ← buildTriggerNameJs db.Namespace functionName
  return (triggerName, sqlDropTrigger triggerName qn.schema qn.name)

/-- `provider/src/index.ts`: the `ResourceProperties` union, keyed by
`ServiceType` (`Prerequisites` or `Trigger`). -/
inductive ResourceProps where
  | prerequisites (db : DBProps)
  | trigger (db : DBProps) (trg : TriggerProps) (targetArn : String)
  deriving DecidableEq, Repr

/-- The `Database` property carried by either kind of resource. -/
def ResourceProps.database : ResourceProps → DBProps
  | .prerequisites db => db
  | .trigger db _ _ => db

/-- The shape of a `CloudFormationCustomResourceEvent` as the handler
consumes it: `Update` events additionally carry `OldResourceProperties`
and a `PhysicalResourceId`, `Delete` events a `PhysicalResourceId`. -/
inductive CfnEvent where
  | createE (props : ResourceProps)
  | updateE (props : ResourceProps) (oldProps : ResourceProps) (physicalResourceId : String)
  | deleteE (props : ResourceProps) (physicalResourceId : String)
  deriving DecidableEq, Repr

/-- The `ResourceProperties` of an event. -/
def CfnEvent.props : CfnEvent → ResourceProps
  | .createE p => p
  | .updateE p _ _ => p
  | .deleteE p _ => p

/-- An externally visible action of the handler: executing one SQL text
over one connection (each such query runs inside its own `withClient`
session), or PUT-ing one response (physical id plus optional error) to
the CloudFormation response URL. -/
inductive Action where
  | query (conn : String) (sql : String)
  | respond (physicalResourceId : Option String) (error : Option String)
  deriving DecidableEq, Repr

/-- Failure oracle for the handler's external calls: whether a given
query (identified by its connection string and SQL) fails, whether the
main-branch `respond` PUT fails, and whether the catch-block `respond`
PUT fails; each carries the error message. -/
structure Oracle where
  queryFails : String → String → Option String
  mainRespondFails : Option String
  catchRespondFails : Option String

/-- One result of a step: the actions it performed and its outcome. -/
abbrev StepOut := List Action × Except String Unit

/-- Execute one SQL text over one connection: the query is always
attempted, and fails exactly when the oracle says so. -/
def queryStep (qf : String → String → Option String) (conn sql : String) : StepOut :=
  ([Action.query conn sql],
    match qf conn sql with
    | some m => .error m
    | none => .ok ())

/-- The `.catch((e) => console.log(... ignored ...))` wrapper on the
best-effort drop calls: the actions stand, the error is swallowed. -/
def bestEffort : StepOut → StepOut
  | (tr, _) => (tr, .ok ())

/-- The main-branch `respond` call (`provider/src/index.ts`, `respond`):
PUT the response body, throwing when the PUT is not ok. -/
def mainRespondStep (mrf : Option String) (physId : Option String) (err : Option String) : StepOut :=
  ([Action.respond physId err],
    match mrf with
    | some m => .error ("CFN response PUT failed: " ++ m)
    | none => .ok ())

/-- `provider/src/index.ts` `ensurePrereqs` as invoked by the handler:
run the prerequisites SQL over the given connection. -/
def ensurePrereqsStep (qf : String → String → Option String) (conn : String) (db : DBProps) : StepOut :=
  queryStep qf conn (sqlCreatePrerequisites db.RoleName db.Namespace db.FunctionName)

/-- `provider/src/sql.ts` `createTrigger` as invoked by the handler: the
pure SQL construction may throw (before any database call), otherwise
the DDL is executed over the connection.  `functionName` is the fifth
parameter of `createTrigger`, which the handler call sites omit. -/
def createTriggerStep (qf : String → String → Option String) (conn : String) (db : DBProps)
    (trg : TriggerProps) (targetArn : String) (functionName : Option String) : StepOut :=
  match createTriggerSqlOp db trg targetArn functionName with
  | .error e => ([], .error e)
  | .ok (_, sql) => queryStep qf conn sql

/-- `provider/src/sql.ts` `dropTrigger` as invoked by the handler. -/
def dropTriggerStep (qf : String → String → Option String) (conn : String) (db : DBProps)
    (trg : TriggerProps) (functionName : Option String) : StepOut :=
  match dropTriggerSqlOp db trg functionName with
  | .error e => ([], .error e)
  | .ok (_, sql) => queryStep qf conn sql

/-- Layered connection-string resolution as written in the handler:
`props.Database.ConnectionString || process.env.PG_CONNECTION_STRING || empty`
(JS `||`, so an explicitly configured empty string also falls through to
the environment default). -/
def resolveConn (explicit envVar : Option String) : String :=
  if strTruthy explicit then explicit.getD ""
  else if strTruthy envVar then envVar.getD ""
  else ""

/-- Outcome of the handler's `try` block: the actions performed, the
current value of the mutable `physId` variable, and the block's result. -/
structure MainOut where
  trace : List Action
  physId : Option String
  result : Except String Unit
  deriving Repr

/-- The body of the handler's `try` block (`provider/src/index.ts`,
`handler`): switch on `ServiceType`, resolve the connection string,
compute the physical resource id, then switch on the request type.  The
`Trigger`/`Create` and `Trigger`/`Update` cases call `createTrigger`
with four arguments, leaving its `functionName` parameter `undefined`
(modelled by `none`); the drop calls pass `targetArn` in that position
and are wrapped in `.catch`, so their failure is ignored. -/
def mainBranch (env : Option String) (qf : String → String → Option String)
    (mrf : Option String) (ev : CfnEvent) : MainOut :=
  match ev.props with
  | ResourceProps.prerequisites db =>
    let conn := resolveConn db.ConnectionString env
    if conn = "" then ⟨[], none, .error "Missing Database.ConnectionString"⟩
    else
      let physId :=
        match ev with
        | .createE _ => db.Namespace
        | .updateE _ _ pid => if pid != "" then pid else db.Namespace
        | .deleteE _ pid => if pid != "" then pid else db.Namespace
      match ev with
      | .createE _ | .updateE _ _ _ =>
        let s1 := ensurePrereqsStep qf conn db
        match s1.2 with
        | .error e => ⟨s1.1, some physId, .error e⟩
        | .ok _ =>
          let s2 := mainRespondStep mrf (some physId) none
          ⟨s1.1 ++ s2.1, some physId, s2.2⟩
      | .deleteE _ _ =>
        let s2 := mainRespondStep mrf (some physId) none
        ⟨s2.1, some physId, s2.2⟩
  | ResourceProps.trigger db trg targetArn =>
    if targetArn = "" then ⟨[], none, .error "Missing TargetArn"⟩
    else
      let newConn := resolveConn db.ConnectionString env
      if newConn = "" then ⟨[], none, .error "Missing Database.ConnectionString"⟩
      else
        let physId := buildTriggerName db.Namespace targetArn
        match ev with
        | .createE _ =>
          let s1 := createTriggerStep qf newConn db trg targetArn none
          match s1.2 with
          | .error e => ⟨s1.1, some physId, .error e⟩
          | .ok _ =>
            let s2 := mainRespondStep mrf (some physId) none
            ⟨s1.1 ++ s2.1, some physId, s2.2⟩
        | .updateE _ oldProps _ =>
          let oldDb := oldProps.database
          let oldConn := oldDb.ConnectionString
          let s1 :=
            bestEffort
              (if strTruthy oldConn && (oldConn.getD "" != newConn) then
                dropTriggerStep qf (oldConn.getD "") oldDb trg (some targetArn)
              else
                dropTriggerStep qf newConn db trg (some targetArn))
          let s2 := createTriggerStep qf newConn db trg targetArn none
          match s2.2 with
          | .error e => ⟨s1.1 ++ s2.1, some physId, .error e⟩
          | .ok _ =>
            let s3 := mainRespondStep mrf (some physId) none
            ⟨s1.1 ++ s2.1 ++ s3.1, some physId, s3.2⟩
        | .deleteE _ _ =>
          let s1 := bestEffort (dropTriggerStep qf newConn db trg (some targetArn))
          let s2 := mainRespondStep mrf (some physId) none
          ⟨s1.1 ++ s2.1, some physId, s2.2⟩

/-- `provider/src/index.ts` `handler`: run the `try` block; on an
uncaught error, attempt one failure `respond` (whose own failure is
swallowed by `.catch`) and re-raise the original error. -/
def handler (env : Option String) (o : Oracle) (ev : CfnEvent) : List Action × Except String Unit :=
  let m := mainBranch env o.queryFails o.mainRespondFails ev
  match m.result with
  | .ok _ => (m.trace, .ok ())
  | .error e =>
    let catchRespondResult : Except String Unit :=
      match o.catchRespondFails with
      | some msg => .error ("CFN response PUT failed: " ++ msg)
      | none => .ok ()
    match catchRespondResult with
    | .ok _ => (m.trace ++ [Action.respond m.physId (some e)], .error e)
    | .error _ => (m.trace ++ [Action.respond m.physId (some e)], .error e)

end Provider

/-- Events of one database-session execution: opening the connection,
running the caller's action, closing the connection. -/
inductive SessionEvent where
  | connect (conn : String)
  | runAction
  | close (conn : String)
  deriving DecidableEq, Repr

/-- Number of `connect` events in a session trace. -/
def opensCount (evs : List SessionEvent) : Nat :=
  (evs.filter fun e => match e with | SessionEvent.connect _ => true | _ => false).length

/-- Number of `close` events in a session trace. -/
def closesCount (evs : List SessionEvent) : Nat :=
  (evs.filter fun e => match e with | SessionEvent.close _ => true | _ => false).length

namespace Provider

/-- `provider/src/sql.ts` `withClient`: construct a client for the
connection string, connect, then run the action inside `try` with
`client.end()` in the `finally` block, so the connection is closed
whether the action returns or throws; the action's outcome (value or
error) propagates afterwards.  A failure of `connect` itself happens
before the `try`, so no session is opened in that case. -/
def withClient (conn : String) (connectFails : Option String)
    (act : Except String α) : List SessionEvent × Except String α :=
  match connectFails with
  | some m => ([SessionEvent.connect conn], .error m)
  | none => ([SessionEvent.connect conn, SessionEvent.runAction, SessionEvent.close conn], act)

end Provider

namespace Plugin

/-- `src/index.ts`: the `Op` union of trigger operations. -/
inductive Op where
  | INSERT
  | UPDATE
  | DELETE
  deriving DecidableEq, Repr

/-- Rendering of an `Op`, as joined into the operations clause. -/
def Op.toStr : Op → String
  | Op.INSERT => "INSERT"
  | Op.UPDATE => "UPDATE"
  | Op.DELETE => "DELETE"

/-- Rendering of a possibly-undefined `Order` as JS string interpolation
does (undefined prints as `undefined`). -/
def optOrderStr : Option Provider.Order → String
  | none => "undefined"
  | some o => Provider.orderToStr o

/-- Rendering of a possibly-undefined `Level`. -/
def optLevelStr : Option Provider.Level → String
  | none => "undefined"
  | some l => Provider.levelToStr l

/-- `src/index.ts`: a `postgres` function event (`PostgresEvent`); the
optional `when` field is named `whenExpr` here. -/
structure PostgresEvent where
  table : String
  operations : List Op
  order : Option Provider.Order := none
  level : Option Provider.Level := none
  whenExpr : Option String := none
  deriving DecidableEq, Repr

/-- `src/index.ts`: a deployable function together with its single
postgres event and resolved ARN (`FunctionWithPostgresEvent`). -/
structure FunctionWithPostgresEvent where
  key : String
  trigger : PostgresEvent
  arn : String
  deriving DecidableEq, Repr

/-- `src/index.ts`: the resolved `Required<CustomConfig>` produced by
the `config` getter; the source field `namespace` is named `nsp` here. -/
structure PluginConfig where
  connectionString : String
  nsp : String
  roleName : String
  functionName : String
  deriving DecidableEq, Repr

/-- The connection-string line of the `config` getter:
`config.connectionString ?? process.env.PG_CONNECTION_STRING ?? empty`
(JS `??`, so only `undefined` falls through, not an empty string). -/
def resolveConnectionString (explicit envVar : Option String) : String :=
  explicit.getD (envVar.getD "")

/-- `src/helpers.ts` `qIdent` (textually identical to the provider's). -/
def qIdent (id : String) : String := ⟨dqChar :: (Provider.escapeQuotes id.data ++ [dqChar])⟩

/-- `src/helpers.ts` `splitQualifiedName`: same splitting as the
provider's copy, but the empty-side failures are `assert(schema)` /
`assert(name)` failures. -/
def splitQualifiedName (qname : String) : Except String Provider.QName :=
  if qname.data.contains '.' then
    let parts := splitOnChar '.' qname.data
    let schema : String := ⟨parts.getD 0 []⟩
    let name : String := ⟨parts.getD 1 []⟩
    if schema = "" then .error "AssertionError: schema"
    else if name = "" then .error "AssertionError: name"
    else .ok ⟨schema, name⟩
  else
    .ok ⟨"public", qname⟩

/-- `src/index.ts` `buildTriggerName`: join the configured namespace and
the function key with an underscore. -/
def buildTriggerName (nsp : String) (fn : FunctionWithPostgresEvent) : String :=
  nsp ++ "_" ++ fn.key

/-- `src/index.ts` `buildCreateTriggerSql`: reject any order other than
(a present) `AFTER` and any level other than (a present) `ROW`, then
split the table name, join the operations, build the optional `when`
clause, derive the trigger name, escape the ARN literal, and assemble
the drop-and-create DDL (trimmed, as the source trims the template). -/
def buildCreateTriggerSql (cfg : PluginConfig) (fn : FunctionWithPostgresEvent) :
    Except String String :=
  let table := fn.trigger.table
  let order := fn.trigger.order
  let level := fn.trigger.level
  if order ≠ some Provider.Order.AFTER then
    .error ("Only AFTER triggers are supported; got \x22" ++ optOrderStr order
      ++ "\x22 for table " ++ table)
  else if level ≠ some Provider.Level.ROW then
    .error ("Only ROW triggers are supported; got \x22" ++ optLevelStr level
      ++ "\x22 for table " ++ table)
  else do
    let qn ← splitQualifiedName table
    let ops := String.intercalate " OR " (fn.trigger.operations.map Op.toStr)
    let whenClause :=
      match fn.trigger.whenExpr with
      | some w => if w != "" then "\n  when (" ++ w ++ ")" else ""
      | none => ""
    let triggerName := buildTriggerName cfg.nsp fn
    let argLiteral : String := ⟨sqChar :: (Provider.escapeSingleQuotes fn.arn.data ++ [sqChar])⟩
    return ("\n\t\t\tdrop trigger if exists " ++ qIdent triggerName ++ " on " ++ qIdent qn.schema
      ++ "." ++ qIdent qn.name ++ " cascade;\n\t\t\tcreate trigger " ++ qIdent triggerName
      ++ "\n\t\t\t\t" ++ Provider.orderToStr (order.getD Provider.Order.AFTER) ++ " " ++ ops
      ++ " on " ++ qIdent qn.schema ++ "." ++ qIdent qn.name
      ++ "\n\t\t\t\tfor each " ++ Provider.levelLower (level.getD Provider.Level.ROW) ++ whenClause
      ++ "\n\t\t\t\texecute function " ++ qIdent cfg.nsp ++ "." ++ qIdent cfg.functionName
      ++ "(" ++ argLiteral ++ ");\n\t\t").trim

/-- `src/index.ts` `buildDropTriggerSql`: split the table name, derive
the trigger name, and emit the drop statement. -/
def buildDropTriggerSql (cfg : PluginConfig) (fn : FunctionWithPostgresEvent) :
    Except String String := do
  let qn ← splitQualifiedName fn.trigger.table
  let triggerName := buildTriggerName cfg.nsp fn
  return ("drop trigger if exists " ++ qIdent triggerName ++ " on " ++ qIdent qn.schema
    ++ "." ++ qIdent qn.name ++ " cascade;")

/-- `src/index.ts` `withClient`: throw a configuration error when the
resolved connection string is falsy (before any connection is made);
otherwise connect, run the action inside `try`, and `client.end()` in
the `finally` block on both exit paths. -/
def withClient (connectionString : String) (connectFails : Option String)
    (act : Except String Unit) : List SessionEvent × Except String Unit :=
  if connectionString = "" then
    ([], .error "Missing Postgres connection string. Set custom.postgres.connectionString or PG_CONNECTION_STRING env var.")
  else
    match connectFails with
    | some m => ([SessionEvent.connect connectionString], .error m)
    | none =>
      ([SessionEvent.connect connectionString, SessionEvent.runAction,
        SessionEvent.close connectionString], act)

end Plugin

/-! ### Claim C10: identifier quoting round-trips -/

/-- Collapse doubled double quotes back to single ones: the inverse of
the escaping step, as the claim words it. -/
def unescapeQuotes : List Char → List Char
  | [] => []
  | [c] => [c]
  | c :: d :: cs =>
    if c = dqChar ∧ d = dqChar then dqChar :: unescapeQuotes cs
    else c :: unescapeQuotes (d :: cs)

/-- Un-quote a quoted identifier, as the claim words it: strip the outer
double quotes (requiring them to be present) and collapse every doubled
double quote; `none` when the outer quotes are missing. -/
def unquoteIdentifier (s : String) : Option String :=
  match s.data with
  | [] => none
  | c :: rest =>
    if c = dqChar ∧ rest ≠ [] ∧ rest.getLast? = some dqChar then
      some ⟨unescapeQuotes rest.dropLast⟩
    else none

theorem escapeQuotes_eq_nil {l : List Char} (h : Provider.escapeQuotes l = []) : l = [] := by
  cases l with
  | nil => rfl
  | cons c cs =>
    by_cases hc : c = dqChar <;> simp [Provider.escapeQuotes, hc] at h

theorem unescapeQuotes_escapeQuotes (l : List Char) :
    unescapeQuotes (Provider.escapeQuotes l) = l := by
  induction l with
  | nil => rfl
  | cons c cs ih =>
    by_cases hc : c = dqChar
    · subst hc
      have h1 : Provider.escapeQuotes (dqChar :: cs)
          = dqChar :: dqChar :: Provider.escapeQuotes cs := by
        simp [Provider.escapeQuotes]
      have h2 : unescapeQuotes (dqChar :: dqChar :: Provider.escapeQuotes cs)
          = dqChar :: unescapeQuotes (Provider.escapeQuotes cs) := by
        simp [unescapeQuotes]
      rw [h1, h2, ih]
    · cases hcs : Provider.escapeQuotes cs with
      | nil =>
        have hnil : cs = [] := escapeQuotes_eq_nil hcs
        subst hnil
        have h1 : Provider.escapeQuotes [c] = [c] := by simp [Provider.escapeQuotes, hc]
        rw [h1]
        rfl
      | cons d t =>
        have h1 : Provider.escapeQuotes (c :: cs) = c :: d :: t := by
          simp [Provider.escapeQuotes, hc, hcs]
        have h2 : unescapeQuotes (c :: d :: t) = c :: unescapeQuotes (d :: t) := by
          simp [unescapeQuotes, hc]
        rw [h1, h2, ← hcs, ih]

/-- Un-quoting a quoted-and-escaped character list recovers the list. -/
theorem unquoteIdentifier_quoted (l : List Char) :
    unquoteIdentifier ⟨dqChar :: (Provider.escapeQuotes l ++ [dqChar])⟩ = some ⟨l⟩ := by
  have hne : Provider.escapeQuotes l ++ [dqChar] ≠ [] := by simp
  have hlast : (Provider.escapeQuotes l ++ [dqChar]).getLast? = some dqChar :=
    List.getLast?_concat _
  show (if dqChar = dqChar ∧ Provider.escapeQuotes l ++ [dqChar] ≠ [] ∧
        (Provider.escapeQuotes l ++ [dqChar]).getLast? = some dqChar then
      some (⟨unescapeQuotes (Provider.escapeQuotes l ++ [dqChar]).dropLast⟩ : String)
    else none) = some ⟨l⟩
  rw [if_pos ⟨rfl, hne, hlast⟩, List.dropLast_concat, unescapeQuotes_escapeQuotes]

/-- C10: for every raw identifier string, `qIdent` wraps it in double
quotes doubling every embedded double quote, and un-quoting the result
(stripping the outer quotes and collapsing doubled quotes) recovers
exactly the original string; this holds for both the provider's and the
deploy-time plugin's (textually identical) copies of the function. -/
theorem c10_quote_identifier_round_trip (raw : String) :
    unquoteIdentifier (Provider.qIdent raw) = some raw ∧
    unquoteIdentifier (Plugin.qIdent raw) = some raw := by
  exact ⟨unquoteIdentifier_quoted raw.data, unquoteIdentifier_quoted raw.data⟩

/-! ### Claim C6: splitting qualified table names -/

/-- Modelled from the claim wording, for comparison with the source
function: split on the FIRST dot only, so the schema is everything
before the first dot and the name is everything after it (later dots
remain part of the name); same error rule on empty sides, same
`public` default. -/
def splitOnFirstDotClaim (qname : String) : Except String Provider.QName :=
  if qname.data.contains '.' then
    let parts := splitOnChar '.' qname.data
    let schema : String := ⟨parts.getD 0 []⟩
    let name : String := ⟨List.intercalate ['.'] (parts.drop 1)⟩
    if schema = "" || name = "" then
      .error ("Invalid table qualified name: \x22" ++ qname ++ "\x22")
    else
      .ok ⟨schema, name⟩
  else
    .ok ⟨"public", qname⟩

/-- C6 counterexample: on `a.b.c` the source function does NOT split on
the first dot: it returns name `b`, silently discarding `.c`, whereas
splitting on the first dot would return name `b.c`. -/
theorem c6_split_counterexample :
    Provider.splitQualifiedName "a.b.c" = .ok ⟨"a", "b"⟩ ∧
    splitOnFirstDotClaim "a.b.c" = .ok ⟨"a", "b.c"⟩ ∧
    Provider.splitQualifiedName "a.b.c" ≠ splitOnFirstDotClaim "a.b.c" := by
  refine ⟨by decide, by decide, by decide⟩

/-- C6 amended: `splitQualifiedName` splits on every dot and keeps the
first two segments, discarding the rest: an input with no dot yields
schema `public` and the input as name; `a.b` yields `{a, b}`; a dot
present with an empty first or second segment (`a.`, `.b`) raises a
configuration error; `a.b.c` yields `{a, b}` (the `.c` is discarded);
and the helpers copy (assert-based) accepts and rejects exactly the
same inputs with the same results. -/
theorem c6_split_qualified_name_amended :
    (∀ q : String, q.data.contains '.' = false →
      Provider.splitQualifiedName q = .ok ⟨"public", q⟩) ∧
    Provider.splitQualifiedName "a.b" = .ok ⟨"a", "b"⟩ ∧
    (∃ e, Provider.splitQualifiedName "a." = .error e) ∧
    (∃ e, Provider.splitQualifiedName ".b" = .error e) ∧
    Provider.splitQualifiedName "a.b.c" = .ok ⟨"a", "b"⟩ ∧
    (∀ q : String,
      (Provider.splitQualifiedName q).toOption = (Plugin.splitQualifiedName q).toOption) := by
  refine ⟨?_, by decide,
    ⟨"Invalid table qualified name: \x22a.\x22", by decide⟩,
    ⟨"Invalid table qualified name: \x22.b\x22", by decide⟩, by decide, ?_⟩
  · intro q h
    unfold Provider.splitQualifiedName
    rw [h]
    rfl
  · intro q
    unfold Provider.splitQualifiedName Plugin.splitQualifiedName
    by_cases h : q.data.contains '.'
    · rw [h]
      dsimp only
      split_ifs with h1 h2 h2 <;> simp_all [Except.toOption]
    · rw [Bool.not_eq_true] at h
      rw [h]
      rfl

/-- C6 witness: the amended theorem applied at concrete inputs. -/
theorem c6_split_witness :
    Provider.splitQualifiedName "events" = .ok ⟨"public", "events"⟩ :=
  c6_split_qualified_name_amended.1 "events" (by decide)

/-! ### Claim C7: operations clause construction -/

/-- C7: in the legacy-style spec, when no operation is requested the
operations clause defaults to `INSERT OR UPDATE OR DELETE`; when the
update flag carries a non-empty column list the `UPDATE` entry of the
`ops` array is column-scoped with each column quoted as an identifier;
and when it carries a non-blank column string the `UPDATE` entry is
column-scoped on that (quoted) string. -/
theorem c7_build_ops_operations_clause :
    (∀ (tbl : String) (ord : Option Provider.Order) (lvl : Option Provider.Level),
      Provider.buildOps
        { table := tbl, update := none, delete := none, insert := none,
          order := ord, level := lvl } = "INSERT OR UPDATE OR DELETE") ∧
    (∀ (tr : Provider.TriggerProps) (cs : List String),
      tr.update = some ⟨some (Provider.Columns.arr cs)⟩ → cs ≠ [] →
      ("UPDATE OF " ++ String.intercalate ", " (cs.map Provider.qIdent))
        ∈ Provider.buildOpsList tr) ∧
    (∀ (tr : Provider.TriggerProps) (s : String),
      tr.update = some ⟨some (Provider.Columns.str s)⟩ → jsTrim s ≠ "" →
      ("UPDATE OF " ++ Provider.qIdent s) ∈ Provider.buildOpsList tr) := by
  refine ⟨?_, ?_, ?_⟩
  · intro tbl ord lvl
    rfl
  · intro tr cs h hne
    have hlen : cs.length > 0 := List.length_pos.mpr hne
    unfold Provider.buildOpsList
    rw [h]
    dsimp only
    rw [if_pos hlen]
    split <;> split <;> simp
  · intro tr s h hne
    have hb : (jsTrim s != "") = true := bne_iff_ne.mpr hne
    unfold Provider.buildOpsList
    rw [h]
    dsimp only
    rw [if_pos hb]
    split <;> split <;> simp

/-- C7 witness: the theorem applied at concrete trigger specs. -/
theorem c7_build_ops_witness :
    Provider.buildOps { table := "t" } = "INSERT OR UPDATE OR DELETE" ∧
    ("UPDATE OF " ++ String.intercalate ", " (["a", "b"].map Provider.qIdent))
      ∈ Provider.buildOpsList
        { table := "t", update := some ⟨some (Provider.Columns.arr ["a", "b"])⟩ } ∧
    ("UPDATE OF " ++ Provider.qIdent "c")
      ∈ Provider.buildOpsList
        { table := "t", update := some ⟨some (Provider.Columns.str "c")⟩ } :=
  ⟨c7_build_ops_operations_clause.1 "t" none none,
   c7_build_ops_operations_clause.2.1 _ ["a", "b"] rfl (by decide),
   c7_build_ops_operations_clause.2.2 _ "c" rfl (by decide)⟩

/-! ### Claim C5: rejection of unsupported order/level -/

/-- C5: the provider's Create-Trigger SQL generator fails exactly when
the spec explicitly requests order `BEFORE` or level `STATEMENT` (an
absent order/level defaults to `AFTER`/`ROW`); the rejection produces a
fixed configuration-error message that is independent of every
DDL-forming input (trigger name, schema, table, namespace, function,
ARN), so it is raised before any DDL string is built; and in the
deploy-time variant the same checks fire first (for any table, even a
malformed one) while order `AFTER` + level `ROW` never produces an
order/level error. -/
theorem c5_create_trigger_rejects_unsupported :
    (∀ (n s t : String) (tr : Provider.TriggerProps) (ns fn arn : String),
      (∃ e, Provider.sqlCreateTrigger n s t tr ns fn arn = .error e) ↔
        (tr.order = some Provider.Order.BEFORE ∨ tr.level = some Provider.Level.STATEMENT)) ∧
    (∀ (n s t : String) (tr : Provider.TriggerProps) (ns fn arn : String),
      tr.order = some Provider.Order.BEFORE →
      Provider.sqlCreateTrigger n s t tr ns fn arn
        = .error "Only AFTER triggers are supported; got BEFORE") ∧
    (∀ (n s t : String) (tr : Provider.TriggerProps) (ns fn arn : String),
      tr.order ≠ some Provider.Order.BEFORE → tr.level = some Provider.Level.STATEMENT →
      Provider.sqlCreateTrigger n s t tr ns fn arn
        = .error "Only ROW triggers are supported; got STATEMENT") ∧
    (∀ (cfg : Plugin.PluginConfig) (fn : Plugin.FunctionWithPostgresEvent),
      fn.trigger.order ≠ some Provider.Order.AFTER →
      Plugin.buildCreateTriggerSql cfg fn
        = .error ("Only AFTER triggers are supported; got \x22"
            ++ Plugin.optOrderStr fn.trigger.order ++ "\x22 for table " ++ fn.trigger.table)) ∧
    (∀ (cfg : Plugin.PluginConfig) (fn : Plugin.FunctionWithPostgresEvent),
      fn.trigger.order = some Provider.Order.AFTER →
      fn.trigger.level ≠ some Provider.Level.ROW →
      Plugin.buildCreateTriggerSql cfg fn
        = .error ("Only ROW triggers are supported; got \x22"
            ++ Plugin.optLevelStr fn.trigger.level ++ "\x22 for table " ++ fn.trigger.table)) ∧
    (∀ (cfg : Plugin.PluginConfig) (fn : Plugin.FunctionWithPostgresEvent)
        (qn : Provider.QName),
      fn.trigger.order = some Provider.Order.AFTER →
      fn.trigger.level = some Provider.Level.ROW →
      Plugin.splitQualifiedName fn.trigger.table = .ok qn →
      ∃ ddl, Plugin.buildCreateTriggerSql cfg fn = .ok ddl) := by
  refine ⟨?_, ?_, ?_, ?_, ?_, ?_⟩
  · intro n s t tr ns fn arn
    rcases tr with ⟨tbl, u, d, i, ord, lvl⟩
    rcases ord with _ | ord <;> rcases lvl with _ | lvl
    · simp [Provider.sqlCreateTrigger]
    · cases lvl <;> simp [Provider.sqlCreateTrigger]
    · cases ord <;> simp [Provider.sqlCreateTrigger]
    · cases ord <;> cases lvl <;> simp [Provider.sqlCreateTrigger]
  · intro n s t tr ns fn arn h
    unfold Provider.sqlCreateTrigger
    rw [h]
    dsimp only
    rw [if_pos (by decide)]
    decide
  · intro n s t tr ns fn arn h1 h2
    unfold Provider.sqlCreateTrigger
    rw [h2]
    rcases hord : tr.order with _ | ord
    · dsimp only
      rw [if_neg (by decide), if_pos (by decide)]
      decide
    · cases ord
      · exact absurd hord h1
      · dsimp only
        rw [if_neg (by decide), if_pos (by decide)]
        decide
  · intro cfg fn h
    unfold Plugin.buildCreateTriggerSql
    rw [if_pos h]
  · intro cfg fn h1 h2
    unfold Plugin.buildCreateTriggerSql
    rw [if_neg (by simp [h1]), if_pos h2]
  · intro cfg fn qn h1 h2 h3
    unfold Plugin.buildCreateTriggerSql
    rw [if_neg (by simp [h1]), if_neg (by simp [h2])]
    exact ⟨_, by rw [h3]; rfl⟩

/-- C5 witness: the theorem applied at concrete trigger specs. -/
theorem c5_create_trigger_witness :
    Provider.sqlCreateTrigger "n" "s" "t"
        { table := "x", order := some Provider.Order.BEFORE } "ns" "fn" "arn"
      = .error "Only AFTER triggers are supported; got BEFORE" ∧
    (∃ ddl, Plugin.buildCreateTriggerSql ⟨"conn", "ns", "role", "fn"⟩
        ⟨"key", { table := "public.events", operations := [Plugin.Op.INSERT],
                  order := some Provider.Order.AFTER, level := some Provider.Level.ROW },
          "arn"⟩ = .ok ddl) :=
  ⟨c5_create_trigger_rejects_unsupported.2.1 "n" "s" "t" _ "ns" "fn" "arn" rfl,
   c5_create_trigger_rejects_unsupported.2.2.2.2.2 _ _ ⟨"public", "events"⟩ rfl rfl (by decide)⟩

/-! ### Claim C2: stable trigger-name derivation -/

theorem ok_bind_eq {ε α β : Type} (a : α) (f : α → Except ε β) :
    (Except.ok a >>= f) = f a := rfl

theorem error_bind_eq {ε α β : Type} (e : ε) (f : α → Except ε β) :
    ((Except.error e : Except ε α) >>= f) = Except.error e := rfl

/-- C2: the trigger name is a pure derivation from (namespace, function
identity).  In the provider, `createTrigger` and `dropTrigger` both
compute `buildTriggerName db.Namespace functionName`, so whenever both
paths produce a name for the same namespace and function identity the
names coincide (and equal the shared derivation); and in the deploy-time
plugin the name depends only on the configured namespace and the
function key, so identical inputs always yield the identical name, for
any other configuration or trigger fields. -/
theorem c2_trigger_name_stable :
    (∀ (db : Provider.DBProps) (trg : Provider.TriggerProps) (arn fname n m : String),
      (Provider.createTriggerSqlOp db trg arn (some fname)).toOption.map Prod.fst = some n →
      (Provider.dropTriggerSqlOp db trg (some fname)).toOption.map Prod.fst = some m →
      n = m ∧ m = Provider.buildTriggerName db.Namespace fname) ∧
    (∀ (db : Provider.DBProps) (trg : Provider.TriggerProps) (fname m : String),
      (Provider.dropTriggerSqlOp db trg (some fname)).toOption.map Prod.fst = some m →
      m = Provider.buildTriggerName db.Namespace fname) ∧
    (∀ (cfg cfg2 : Plugin.PluginConfig) (fn fn2 : Plugin.FunctionWithPostgresEvent),
      cfg.nsp = cfg2.nsp → fn.key = fn2.key →
      Plugin.buildTriggerName cfg.nsp fn = Plugin.buildTriggerName cfg2.nsp fn2) := by
  have hdrop : ∀ (db : Provider.DBProps) (trg : Provider.TriggerProps) (fname m : String),
      (Provider.dropTriggerSqlOp db trg (some fname)).toOption.map Prod.fst = some m →
      m = Provider.buildTriggerName db.Namespace fname := by
    intro db trg fname m hd
    cases hsp : Provider.splitQualifiedName trg.table with
    | error e =>
      simp only [Provider.dropTriggerSqlOp, hsp, error_bind_eq, Except.toOption,
        Option.map_none'] at hd
      exact Option.noConfusion hd
    | ok qn =>
      simp only [Provider.dropTriggerSqlOp, hsp, ok_bind_eq, Provider.buildTriggerNameJs,
        pure, Except.pure, Except.toOption, Option.map_some', Option.some.injEq] at hd
      exact hd.symm
  have hcreate : ∀ (db : Provider.DBProps) (trg : Provider.TriggerProps) (arn fname n : String),
      (Provider.createTriggerSqlOp db trg arn (some fname)).toOption.map Prod.fst = some n →
      n = Provider.buildTriggerName db.Namespace fname := by
    intro db trg arn fname n hc
    cases hsp : Provider.splitQualifiedName trg.table with
    | error e =>
      simp only [Provider.createTriggerSqlOp, hsp, error_bind_eq, Except.toOption,
        Option.map_none'] at hc
      exact Option.noConfusion hc
    | ok qn =>
      simp only [Provider.createTriggerSqlOp, hsp, ok_bind_eq, Provider.buildTriggerNameJs,
        Except.toOption] at hc
      cases hct : Provider.sqlCreateTrigger (Provider.buildTriggerName db.Namespace fname)
          qn.schema qn.name trg db.Namespace db.FunctionName arn with
      | error e =>
        rw [hct] at hc
        simp only [error_bind_eq, Except.toOption, Option.map_none'] at hc
        exact Option.noConfusion hc
      | ok ddl =>
        rw [hct] at hc
        simp only [ok_bind_eq, pure, Except.pure, Except.toOption, Option.map_some',
          Option.some.injEq] at hc
        exact hc.symm
  refine ⟨?_, hdrop, ?_⟩
  · intro db trg arn fname n m hc hd
    have h1 := hcreate db trg arn fname n hc
    have h2 := hdrop db trg fname m hd
    exact ⟨h1.trans h2.symm, h2⟩
  · intro cfg cfg2 fn fn2 hns hk
    unfold Plugin.buildTriggerName
    rw [hns, hk]

/-- C2 witness: the theorem applied at a concrete database target and
trigger spec (names on the create and drop paths both come out as
`ns_myFn`). -/
theorem c2_trigger_name_witness :
    ("ns_myFn" : String) = "ns_myFn" ∧ "ns_myFn" = Provider.buildTriggerName "ns" "myFn" :=
  c2_trigger_name_stable.1
    ⟨some "postgres://db", "ns", "role", "lambda_invoker"⟩
    { table := "public.events" } "arn" "myFn" "ns_myFn" "ns_myFn" (by decide) (by decide)

/-! ### Claim C9: the session executor closes its connection -/

/-- C9: `withClient` opens exactly one connection, runs the action, and
closes the connection on every exit path — both when the action returns
a value and when it raises — with the close event last in the session
(so it happens before the result or error propagates), and with as many
closes as opens, so no connection is left open; the deploy-time
variant behaves identically once its connection-string check passes. -/
theorem c9_with_client_closes_connection :
    (∀ (α : Type) (conn : String) (act : Except String α),
      opensCount (Provider.withClient conn none act).1 = 1 ∧
      closesCount (Provider.withClient conn none act).1 = 1 ∧
      (Provider.withClient conn none act).1.getLast? = some (SessionEvent.close conn) ∧
      (Provider.withClient conn none act).2 = act) ∧
    (∀ (conn : String) (act : Except String Unit), conn ≠ "" →
      opensCount (Plugin.withClient conn none act).1 = 1 ∧
      closesCount (Plugin.withClient conn none act).1 = 1 ∧
      (Plugin.withClient conn none act).1.getLast? = some (SessionEvent.close conn) ∧
      (Plugin.withClient conn none act).2 = act) := by
  constructor
  · intro α conn act
    refine ⟨rfl, rfl, rfl, rfl⟩
  · intro conn act h
    unfold Plugin.withClient
    rw [if_neg h]
    exact ⟨rfl, rfl, rfl, rfl⟩

/-- C9 witness: the theorem applied at a concrete connection string,
once with an action that returns and once with an action that raises. -/
theorem c9_with_client_witness :
    ((Provider.withClient "postgres://db" none (Except.ok 42)).2 = Except.ok 42 ∧
      (Provider.withClient "postgres://db" none (Except.ok 42)).1.getLast?
        = some (SessionEvent.close "postgres://db")) ∧
    ((Plugin.withClient "postgres://db" none
        (Except.error "boom" : Except String Unit)).2 = Except.error "boom" ∧
      closesCount (Plugin.withClient "postgres://db" none
        (Except.error "boom" : Except String Unit)).1 = 1) :=
  ⟨⟨(c9_with_client_closes_connection.1 Nat "postgres://db" (Except.ok 42)).2.2.2,
    (c9_with_client_closes_connection.1 Nat "postgres://db" (Except.ok 42)).2.2.1⟩,
   ⟨(c9_with_client_closes_connection.2 "postgres://db" (Except.error "boom")
      (by decide)).2.2.2,
    (c9_with_client_closes_connection.2 "postgres://db" (Except.error "boom")
      (by decide)).2.1⟩⟩

/-! ### Claim C1: Update reconciliation (drop old, then create new) -/

/-- An oracle under which every external call succeeds. -/
def allOkOracle : Provider.Oracle := ⟨fun _ _ => none, none, none⟩

/-- A concrete new database target (connection `postgres://new`). -/
def exDbNew : Provider.DBProps :=
  ⟨some "postgres://new", "ns", "ns_lambda_invoker", "lambda_invoker"⟩

/-- A concrete old database target (connection `postgres://old`). -/
def exDbOld : Provider.DBProps :=
  ⟨some "postgres://old", "ns", "ns_lambda_invoker", "lambda_invoker"⟩

/-- A concrete, fully valid trigger spec on `public.events`. -/
def exTrg : Provider.TriggerProps := { table := "public.events" }

/-- A concrete Lambda ARN whose function name is `myFn`. -/
def exArn : String := "arn:aws:lambda:eu-west-1:123456789012:function:myFn"

/-- The concrete Update reconciliation request: same trigger spec, the
database connection changed from `postgres://old` to `postgres://new`. -/
def exUpdateEvent : Provider.CfnEvent :=
  Provider.CfnEvent.updateE (Provider.ResourceProps.trigger exDbNew exTrg exArn)
    (Provider.ResourceProps.trigger exDbOld exTrg exArn) "pid"

/-- C1: evaluating the handler on a well-formed Update request with a
changed connection string and every external call succeeding: the
best-effort drop IS issued against the old connection, but the
subsequent `createTrigger` call throws a `TypeError` (the handler calls
`createTrigger` with four arguments, leaving its fifth `functionName`
parameter `undefined`, and `buildTriggerName` calls
`lambdaNameFromArn(undefined)` which dereferences `undefined`), so no
Create-Trigger SQL is ever issued against the new connection and the
handler reports failure. -/
theorem c1_update_create_step_raises :
    Provider.handler none allOkOracle exUpdateEvent
      = ([Provider.Action.query "postgres://old"
            (Provider.sqlDropTrigger "ns_myFn" "public" "events"),
          Provider.Action.respond (some "ns_myFn") (some Provider.jsUndefinedArgError)],
         Except.error Provider.jsUndefinedArgError) := by
  decide


namespace Provider

/-- Number of respond actions in a handler trace. -/
def countResponds (tr : List Action) : Nat :=
  (tr.filter fun a => match a with | Action.respond _ _ => true | _ => false).length

theorem countResponds_append (a b : List Action) :
    countResponds (a ++ b) = countResponds a + countResponds b := by
  simp [countResponds, List.filter_append]

theorem countResponds_mainRespondStep (mrf : Option String) (p e : Option String) :
    countResponds (mainRespondStep mrf p e).1 = 1 := rfl

theorem countResponds_createTriggerStep (qf : String → String → Option String) (conn : String)
    (db : DBProps) (trg : TriggerProps) (arn : String) (f : Option String) :
    countResponds (createTriggerStep qf conn db trg arn f).1 = 0 := by
  unfold createTriggerStep
  split <;> rfl

theorem countResponds_dropTriggerStep (qf : String → String → Option String) (conn : String)
    (db : DBProps) (trg : TriggerProps) (f : Option String) :
    countResponds (dropTriggerStep qf conn db trg f).1 = 0 := by
  unfold dropTriggerStep
  split <;> rfl

theorem bestEffort_fst (x : StepOut) : (bestEffort x).1 = x.1 := by
  cases x
  rfl

theorem bestEffort_snd (x : StepOut) : (bestEffort x).2 = Except.ok () := by
  cases x
  rfl

theorem query_mem_queryStep (qf : String → String → Option String)
    (conn sql : String) {c s : String}
    (h : Action.query c s ∈ (queryStep qf conn sql).1) : c = conn := by
  simp only [queryStep, List.mem_singleton, Action.query.injEq] at h
  exact h.1

theorem query_mem_createTriggerStep (qf : String → String → Option String)
    (conn : String) (db : DBProps) (trg : TriggerProps) (arn : String) (f : Option String)
    {c s : String}
    (h : Action.query c s ∈ (createTriggerStep qf conn db trg arn f).1) : c = conn := by
  unfold createTriggerStep at h
  split at h
  · simp at h
  · exact query_mem_queryStep qf conn _ h

theorem query_mem_dropTriggerStep (qf : String → String → Option String)
    (conn : String) (db : DBProps) (trg : TriggerProps) (f : Option String)
    {c s : String}
    (h : Action.query c s ∈ (dropTriggerStep qf conn db trg f).1) : c = conn := by
  unfold dropTriggerStep at h
  split at h
  · simp at h
  · exact query_mem_queryStep qf conn _ h

theorem query_mem_ensurePrereqsStep (qf : String → String → Option String)
    (conn : String) (db : DBProps) {c s : String}
    (h : Action.query c s ∈ (ensurePrereqsStep qf conn db).1) : c = conn := by
  unfold ensurePrereqsStep at h
  exact query_mem_queryStep qf conn _ h

theorem strTruthy_getD_ne {o : Option String} (h : strTruthy o = true) : o.getD "" ≠ "" := by
  cases o with
  | none => simp [strTruthy] at h
  | some s =>
    simp only [strTruthy, bne_iff_ne, ne_eq] at h
    simpa using h

/-- Every database query the handler's main branch performs uses a
non-empty connection string. -/
theorem mainBranch_query_conn_ne (env : Option String)
    (qf : String → String → Option String) (mrf : Option String) (ev : CfnEvent)
    (c s : String) (hm : Action.query c s ∈ (mainBranch env qf mrf ev).trace) : c ≠ "" := by
  rcases ev with p | ⟨p, oldp, pid⟩ | ⟨p, pid⟩ <;>
    rcases p with db | ⟨db, trg, arn⟩ <;>
      unfold mainBranch at hm <;>
        simp only [CfnEvent.props] at hm
  · by_cases hc : resolveConn db.ConnectionString env = ""
    · rw [if_pos hc] at hm
      simp at hm
    · rw [if_neg hc] at hm
      split at hm
      · rw [query_mem_ensurePrereqsStep qf (resolveConn db.ConnectionString env) db hm]
        exact hc
      · rcases List.mem_append.mp hm with h1 | h2
        · rw [query_mem_ensurePrereqsStep qf (resolveConn db.ConnectionString env) db h1]
          exact hc
        · simp [mainRespondStep] at h2
  · by_cases ha : arn = ""
    · rw [if_pos ha] at hm
      simp at hm
    · rw [if_neg ha] at hm
      by_cases hc : resolveConn db.ConnectionString env = ""
      · rw [if_pos hc] at hm
        simp at hm
      · rw [if_neg hc] at hm
        split at hm
        · rw [query_mem_createTriggerStep qf (resolveConn db.ConnectionString env) db trg arn none hm]
          exact hc
        · rcases List.mem_append.mp hm with h1 | h2
          · rw [query_mem_createTriggerStep qf (resolveConn db.ConnectionString env) db trg arn none h1]
            exact hc
          · simp [mainRespondStep] at h2
  · by_cases hc : resolveConn db.ConnectionString env = ""
    · rw [if_pos hc] at hm
      simp at hm
    · rw [if_neg hc] at hm
      split at hm
      · rw [query_mem_ensurePrereqsStep qf (resolveConn db.ConnectionString env) db hm]
        exact hc
      · rcases List.mem_append.mp hm with h1 | h2
        · rw [query_mem_ensurePrereqsStep qf (resolveConn db.ConnectionString env) db h1]
          exact hc
        · simp [mainRespondStep] at h2
  · by_cases ha : arn = ""
    · rw [if_pos ha] at hm
      simp at hm
    · rw [if_neg ha] at hm
      by_cases hc : resolveConn db.ConnectionString env = ""
      · rw [if_pos hc] at hm
        simp at hm
      · rw [if_neg hc] at hm
        split at hm
        · rcases List.mem_append.mp hm with h1 | h2
          · rw [bestEffort_fst] at h1
            by_cases hold : (strTruthy oldp.database.ConnectionString
                && (oldp.database.ConnectionString.getD "" != resolveConn db.ConnectionString env)) = true
            · rw [if_pos hold] at h1
              rw [query_mem_dropTriggerStep qf (oldp.database.ConnectionString.getD "")
                oldp.database trg (some arn) h1]
              exact strTruthy_getD_ne ((Bool.and_eq_true _ _).mp hold).1
            · rw [if_neg hold] at h1
              rw [query_mem_dropTriggerStep qf (resolveConn db.ConnectionString env)
                db trg (some arn) h1]
              exact hc
          · rw [query_mem_createTriggerStep qf (resolveConn db.ConnectionString env) db trg arn none h2]
            exact hc
        · rcases List.mem_append.mp hm with h1 | h2
          · rcases List.mem_append.mp h1 with h1a | h1b
            · rw [bestEffort_fst] at h1a
              by_cases hold : (strTruthy oldp.database.ConnectionString
                  && (oldp.database.ConnectionString.getD "" != resolveConn db.ConnectionString env)) = true
              · rw [if_pos hold] at h1a
                rw [query_mem_dropTriggerStep qf (oldp.database.ConnectionString.getD "")
                  oldp.database trg (some arn) h1a]
                exact strTruthy_getD_ne ((Bool.and_eq_true _ _).mp hold).1
              · rw [if_neg hold] at h1a
                rw [query_mem_dropTriggerStep qf (resolveConn db.ConnectionString env)
                  db trg (some arn) h1a]
                exact hc
            · rw [query_mem_createTriggerStep qf (resolveConn db.ConnectionString env) db trg arn none h1b]
              exact hc
          · simp [mainRespondStep] at h2
  · by_cases hc : resolveConn db.ConnectionString env = ""
    · rw [if_pos hc] at hm
      simp at hm
    · rw [if_neg hc] at hm
      simp [mainRespondStep] at hm
  · by_cases ha : arn = ""
    · rw [if_pos ha] at hm
      simp at hm
    · rw [if_neg ha] at hm
      by_cases hc : resolveConn db.ConnectionString env = ""
      · rw [if_pos hc] at hm
        simp at hm
      · rw [if_neg hc] at hm
        rcases List.mem_append.mp hm with h1 | h2
        · rw [bestEffort_fst] at h1
          rw [query_mem_dropTriggerStep qf (resolveConn db.ConnectionString env)
            db trg (some arn) h1]
          exact hc
        · simp [mainRespondStep] at h2

end Provider


namespace Provider

theorem countResponds_ensurePrereqsStep (qf : String → String → Option String)
    (conn : String) (db : DBProps) :
    countResponds (ensurePrereqsStep qf conn db).1 = 0 := rfl

theorem countResponds_bestEffort_ite (cond : Prop) [Decidable cond] (x y : StepOut)
    (hx : countResponds x.1 = 0) (hy : countResponds y.1 = 0) :
    countResponds (bestEffort (if cond then x else y)).1 = 0 := by
  rw [bestEffort_fst]
  split
  · exact hx
  · exact hy

/-- A query in the full handler trace is a query of the main branch (the
catch block only ever appends a respond action). -/
theorem query_mem_handler (env : Option String) (o : Oracle) (ev : CfnEvent) (c s : String)
    (hq : Action.query c s ∈ (handler env o ev).1) :
    Action.query c s ∈ (mainBranch env o.queryFails o.mainRespondFails ev).trace := by
  unfold handler at hq
  dsimp only at hq
  split at hq
  · exact hq
  · split at hq <;>
    · rcases List.mem_append.mp hq with h1 | h2
      · exact h1
      · simp at h2

/-- When the connection string resolves to empty (or the target ARN is
missing), the main branch performs no action at all and fails. -/
theorem mainBranch_conn_missing (env : Option String)
    (qf : String → String → Option String) (mrf : Option String) (ev : CfnEvent)
    (h : resolveConn ev.props.database.ConnectionString env = "") :
    ∃ e, mainBranch env qf mrf ev = ⟨[], none, .error e⟩ := by
  rcases ev with p | ⟨p, oldp, pid⟩ | ⟨p, pid⟩ <;>
    rcases p with db | ⟨db, trg, arn⟩ <;>
      simp only [CfnEvent.props, ResourceProps.database] at h <;>
        unfold mainBranch <;>
          simp only [CfnEvent.props]
  · rw [if_pos h]
    exact ⟨_, rfl⟩
  · by_cases ha : arn = ""
    · rw [if_pos ha]
      exact ⟨_, rfl⟩
    · rw [if_neg ha, if_pos h]
      exact ⟨_, rfl⟩
  · rw [if_pos h]
    exact ⟨_, rfl⟩
  · by_cases ha : arn = ""
    · rw [if_pos ha]
      exact ⟨_, rfl⟩
    · rw [if_neg ha, if_pos h]
      exact ⟨_, rfl⟩
  · rw [if_pos h]
    exact ⟨_, rfl⟩
  · by_cases ha : arn = ""
    · rw [if_pos ha]
      exact ⟨_, rfl⟩
    · rw [if_neg ha, if_pos h]
      exact ⟨_, rfl⟩

/-- The main branch responds at most once, and exactly once when it
succeeds. -/
theorem mainBranch_countResponds (env : Option String)
    (qf : String → String → Option String) (mrf : Option String) (ev : CfnEvent) :
    countResponds (mainBranch env qf mrf ev).trace ≤ 1 ∧
    ((mainBranch env qf mrf ev).result = Except.ok () →
      countResponds (mainBranch env qf mrf ev).trace = 1) := by
  rcases ev with p | ⟨p, oldp, pid⟩ | ⟨p, pid⟩ <;>
    rcases p with db | ⟨db, trg, arn⟩ <;>
      unfold mainBranch <;>
        simp only [CfnEvent.props]
  · by_cases hc : resolveConn db.ConnectionString env = ""
    · rw [if_pos hc]
      exact ⟨by simp [countResponds], fun h => absurd h (by simp)⟩
    · rw [if_neg hc]
      split
      · exact ⟨by simp [countResponds, ensurePrereqsStep, queryStep], fun h => absurd h (by simp)⟩
      · constructor
        · show countResponds ((ensurePrereqsStep qf _ db).1 ++ (mainRespondStep mrf _ none).1) ≤ 1
          simp [countResponds_append, countResponds_ensurePrereqsStep,
            countResponds_mainRespondStep]
        · intro _
          show countResponds ((ensurePrereqsStep qf _ db).1 ++ (mainRespondStep mrf _ none).1) = 1
          simp [countResponds_append, countResponds_ensurePrereqsStep,
            countResponds_mainRespondStep]
  · by_cases ha : arn = ""
    · rw [if_pos ha]
      exact ⟨by simp [countResponds], fun h => absurd h (by simp)⟩
    · rw [if_neg ha]
      by_cases hc : resolveConn db.ConnectionString env = ""
      · rw [if_pos hc]
        exact ⟨by simp [countResponds], fun h => absurd h (by simp)⟩
      · rw [if_neg hc]
        split
        · refine ⟨?_, fun h => absurd h (by simp)⟩
          show countResponds (createTriggerStep qf _ db trg arn none).1 ≤ 1
          simp [countResponds_createTriggerStep]
        · constructor
          · show countResponds ((createTriggerStep qf _ db trg arn none).1
              ++ (mainRespondStep mrf _ none).1) ≤ 1
            simp [countResponds_append, countResponds_createTriggerStep,
              countResponds_mainRespondStep]
          · intro _
            show countResponds ((createTriggerStep qf _ db trg arn none).1
              ++ (mainRespondStep mrf _ none).1) = 1
            simp [countResponds_append, countResponds_createTriggerStep,
              countResponds_mainRespondStep]
  · by_cases hc : resolveConn db.ConnectionString env = ""
    · rw [if_pos hc]
      exact ⟨by simp [countResponds], fun h => absurd h (by simp)⟩
    · rw [if_neg hc]
      split
      · exact ⟨by simp [countResponds, ensurePrereqsStep, queryStep], fun h => absurd h (by simp)⟩
      · constructor
        · show countResponds ((ensurePrereqsStep qf _ db).1 ++ (mainRespondStep mrf _ none).1) ≤ 1
          simp [countResponds_append, countResponds_ensurePrereqsStep,
            countResponds_mainRespondStep]
        · intro _
          show countResponds ((ensurePrereqsStep qf _ db).1 ++ (mainRespondStep mrf _ none).1) = 1
          simp [countResponds_append, countResponds_ensurePrereqsStep,
            countResponds_mainRespondStep]
  · by_cases ha : arn = ""
    · rw [if_pos ha]
      exact ⟨by simp [countResponds], fun h => absurd h (by simp)⟩
    · rw [if_neg ha]
      by_cases hc : resolveConn db.ConnectionString env = ""
      · rw [if_pos hc]
        exact ⟨by simp [countResponds], fun h => absurd h (by simp)⟩
      · rw [if_neg hc]
        have hbe : countResponds (bestEffort
            (if strTruthy oldp.database.ConnectionString
                && (oldp.database.ConnectionString.getD "" != resolveConn db.ConnectionString env)
              then dropTriggerStep qf (oldp.database.ConnectionString.getD "")
                oldp.database trg (some arn)
              else dropTriggerStep qf (resolveConn db.ConnectionString env)
                db trg (some arn))).1 = 0 :=
          countResponds_bestEffort_ite _ _ _
            (countResponds_dropTriggerStep qf _ oldp.database trg (some arn))
            (countResponds_dropTriggerStep qf _ db trg (some arn))
        split
        · refine ⟨?_, fun h => absurd h (by simp)⟩
          rw [countResponds_append, hbe, countResponds_createTriggerStep]
          decide
        · constructor
          · rw [countResponds_append, countResponds_append, hbe,
              countResponds_createTriggerStep, countResponds_mainRespondStep]
          · intro _
            rw [countResponds_append, countResponds_append, hbe,
              countResponds_createTriggerStep, countResponds_mainRespondStep]
  · by_cases hc : resolveConn db.ConnectionString env = ""
    · rw [if_pos hc]
      exact ⟨by simp [countResponds], fun h => absurd h (by simp)⟩
    · rw [if_neg hc]
      constructor
      · show countResponds (mainRespondStep mrf _ none).1 ≤ 1
        simp [countResponds_mainRespondStep]
      · intro _
        show countResponds (mainRespondStep mrf _ none).1 = 1
        simp [countResponds_mainRespondStep]
  · by_cases ha : arn = ""
    · rw [if_pos ha]
      exact ⟨by simp [countResponds], fun h => absurd h (by simp)⟩
    · rw [if_neg ha]
      by_cases hc : resolveConn db.ConnectionString env = ""
      · rw [if_pos hc]
        exact ⟨by simp [countResponds], fun h => absurd h (by simp)⟩
      · rw [if_neg hc]
        have hbe : countResponds (bestEffort (dropTriggerStep qf
            (resolveConn db.ConnectionString env) db trg (some arn))).1 = 0 := by
          rw [bestEffort_fst]
          exact countResponds_dropTriggerStep qf _ db trg (some arn)
        constructor
        · rw [countResponds_append, hbe, countResponds_mainRespondStep]
        · intro _
          rw [countResponds_append, hbe, countResponds_mainRespondStep]

end Provider

namespace Provider

theorem countResponds_singleton_respond (p q : Option String) :
    countResponds [Action.respond p q] = 1 := rfl

/-- Handler equation in the success case: the trace is the main branch's
trace and the result is success. -/
theorem handler_ok_eq (env : Option String) (o : Oracle) (ev : CfnEvent)
    (he : (mainBranch env o.queryFails o.mainRespondFails ev).result = .ok ()) :
    handler env o ev
      = ((mainBranch env o.queryFails o.mainRespondFails ev).trace, .ok ()) := by
  unfold handler
  dsimp only
  simp only [he]

/-- Handler equation in the failure case: one failure respond (carrying
the physical id known so far and the original error) is appended, and —
whether or not that respond itself fails — the original error is
re-raised. -/
theorem handler_error_eq (env : Option String) (o : Oracle) (ev : CfnEvent) (e : String)
    (he : (mainBranch env o.queryFails o.mainRespondFails ev).result = .error e) :
    handler env o ev
      = ((mainBranch env o.queryFails o.mainRespondFails ev).trace
          ++ [Action.respond (mainBranch env o.queryFails o.mainRespondFails ev).physId
              (some e)],
         .error e) := by
  unfold handler
  dsimp only
  simp only [he]
  cases hcf : o.catchRespondFails <;> simp [hcf]

end Provider

/-! ### Claim C3: exactly one reported outcome -/

/-- C3: the handler always attempts at least one respond (and at most
two, the second being the catch-block failure report after the main
respond itself failed); when the handler succeeds exactly one respond
was PUT; when it re-raises an error, the last action is a failure
respond carrying that same error (so the failure is reported before the
error propagates); and the handler's entire behaviour — trace and
re-raised error — is independent of whether the catch-block respond
fails, i.e. a failure of the failure-report is swallowed and never
masks the original error. -/
theorem c3_exactly_one_outcome :
    (∀ (env : Option String) (o : Provider.Oracle) (ev : Provider.CfnEvent),
      1 ≤ Provider.countResponds (Provider.handler env o ev).1 ∧
      Provider.countResponds (Provider.handler env o ev).1 ≤ 2) ∧
    (∀ (env : Option String) (o : Provider.Oracle) (ev : Provider.CfnEvent),
      (Provider.handler env o ev).2 = .ok () →
      Provider.countResponds (Provider.handler env o ev).1 = 1) ∧
    (∀ (env : Option String) (o : Provider.Oracle) (ev : Provider.CfnEvent) (e : String),
      (Provider.handler env o ev).2 = .error e →
      ∃ p, (Provider.handler env o ev).1.getLast?
        = some (Provider.Action.respond p (some e))) ∧
    (∀ (env : Option String) (qf : String → String → Option String)
        (mrf x y : Option String) (ev : Provider.CfnEvent),
      Provider.handler env ⟨qf, mrf, x⟩ ev = Provider.handler env ⟨qf, mrf, y⟩ ev) := by
  refine ⟨?_, ?_, ?_, ?_⟩
  · intro env o ev
    have hcnt := Provider.mainBranch_countResponds env o.queryFails o.mainRespondFails ev
    cases hres : (Provider.mainBranch env o.queryFails o.mainRespondFails ev).result with
    | ok u =>
      cases u
      rw [Provider.handler_ok_eq env o ev hres]
      dsimp only
      have h1 := hcnt.2 hres
      constructor
      · omega
      · omega
    | error e =>
      rw [Provider.handler_error_eq env o ev e hres]
      show 1 ≤ Provider.countResponds (_ ++ [Provider.Action.respond _ (some e)]) ∧
        Provider.countResponds (_ ++ [Provider.Action.respond _ (some e)]) ≤ 2
      rw [Provider.countResponds_append, Provider.countResponds_singleton_respond]
      have h1 := hcnt.1
      constructor
      · omega
      · omega
  · intro env o ev h
    have hcnt := Provider.mainBranch_countResponds env o.queryFails o.mainRespondFails ev
    cases hres : (Provider.mainBranch env o.queryFails o.mainRespondFails ev).result with
    | ok u =>
      cases u
      rw [Provider.handler_ok_eq env o ev hres]
      exact hcnt.2 hres
    | error e =>
      rw [Provider.handler_error_eq env o ev e hres] at h
      simp at h
  · intro env o ev e h
    cases hres : (Provider.mainBranch env o.queryFails o.mainRespondFails ev).result with
    | ok u =>
      cases u
      rw [Provider.handler_ok_eq env o ev hres] at h
      simp at h
    | error e2 =>
      rw [Provider.handler_error_eq env o ev e2 hres] at h
      have he2 : e2 = e := by simpa using h
      subst he2
      rw [Provider.handler_error_eq env o ev e2 hres]
      exact ⟨_, List.getLast?_concat _⟩
  · intro env qf mrf x y ev
    cases hres : (Provider.mainBranch env qf mrf ev).result with
    | ok u =>
      cases u
      rw [Provider.handler_ok_eq env ⟨qf, mrf, x⟩ ev hres,
        Provider.handler_ok_eq env ⟨qf, mrf, y⟩ ev hres]
    | error e =>
      rw [Provider.handler_error_eq env ⟨qf, mrf, x⟩ ev e hres,
        Provider.handler_error_eq env ⟨qf, mrf, y⟩ ev e hres]

/-- C3 witness: the theorem applied at concrete requests, one that
succeeds (a prerequisites Delete) and one whose main branch raises. -/
theorem c3_exactly_one_outcome_witness :
    Provider.countResponds (Provider.handler none allOkOracle
      (Provider.CfnEvent.deleteE (Provider.ResourceProps.prerequisites exDbNew) "pid")).1 = 1 ∧
    (∃ p, (Provider.handler none allOkOracle exUpdateEvent).1.getLast?
      = some (Provider.Action.respond p (some Provider.jsUndefinedArgError))) :=
  ⟨c3_exactly_one_outcome.2.1 none allOkOracle _ (by decide),
   c3_exactly_one_outcome.2.2.1 none allOkOracle exUpdateEvent
     Provider.jsUndefinedArgError (by decide)⟩

/-! ### Claim C4: Delete reconciliation -/

/-- C4: a prerequisites Delete request never issues any SQL (the path
is a pure no-op apart from the response), and for a trigger Delete the
overall operation reports success regardless of which database queries
fail (`queryFails` is universally quantified, so in particular a failed
drop — or even a drop whose SQL construction throws — never fails the
Delete): the handler result is success and a success respond carrying
the derived trigger name is in the trace. -/
theorem c4_delete_reconciliation :
    (∀ (env : Option String) (o : Provider.Oracle) (db : Provider.DBProps) (pid c s : String),
      Provider.Action.query c s ∉
        (Provider.handler env o
          (Provider.CfnEvent.deleteE (Provider.ResourceProps.prerequisites db) pid)).1) ∧
    (∀ (env : Option String) (o : Provider.Oracle) (db : Provider.DBProps)
        (trg : Provider.TriggerProps) (arn pid : String),
      o.mainRespondFails = none → arn ≠ "" →
      Provider.resolveConn db.ConnectionString env ≠ "" →
      (Provider.handler env o
          (Provider.CfnEvent.deleteE (Provider.ResourceProps.trigger db trg arn) pid)).2
        = .ok () ∧
      Provider.Action.respond (some (Provider.buildTriggerName db.Namespace arn)) none
        ∈ (Provider.handler env o
            (Provider.CfnEvent.deleteE (Provider.ResourceProps.trigger db trg arn) pid)).1) := by
  constructor
  · intro env o db pid c s hq
    have hmem := Provider.query_mem_handler env o _ c s hq
    unfold Provider.mainBranch at hmem
    simp only [Provider.CfnEvent.props] at hmem
    by_cases hc : Provider.resolveConn db.ConnectionString env = ""
    · rw [if_pos hc] at hmem
      simp at hmem
    · rw [if_neg hc] at hmem
      simp [Provider.mainRespondStep] at hmem
  · intro env o db trg arn pid hmrf harn hconn
    have hmb : Provider.mainBranch env o.queryFails o.mainRespondFails
        (Provider.CfnEvent.deleteE (Provider.ResourceProps.trigger db trg arn) pid)
        = ⟨(Provider.bestEffort (Provider.dropTriggerStep o.queryFails
              (Provider.resolveConn db.ConnectionString env) db trg (some arn))).1
            ++ [Provider.Action.respond
                (some (Provider.buildTriggerName db.Namespace arn)) none],
           some (Provider.buildTriggerName db.Namespace arn), .ok ()⟩ := by
      unfold Provider.mainBranch
      simp only [Provider.CfnEvent.props]
      rw [if_neg harn, if_neg hconn, hmrf]
      rfl
    constructor
    · unfold Provider.handler
      rw [hmb]
    · unfold Provider.handler
      rw [hmb]
      dsimp only
      exact List.mem_append_right _ (List.mem_singleton.mpr rfl)

/-- C4 witness: the theorem applied at concrete Delete requests, with an
oracle that fails every database query (the drop fails, the Delete
still succeeds). -/
theorem c4_delete_witness :
    Provider.Action.query "postgres://new"
        (Provider.sqlCreatePrerequisites "ns_lambda_invoker" "ns" "lambda_invoker") ∉
      (Provider.handler none allOkOracle
        (Provider.CfnEvent.deleteE (Provider.ResourceProps.prerequisites exDbNew) "pid")).1 ∧
    (Provider.handler none ⟨fun _ _ => some "drop failed", none, none⟩
        (Provider.CfnEvent.deleteE
          (Provider.ResourceProps.trigger exDbNew exTrg exArn) "pid")).2 = .ok () ∧
    Provider.Action.respond (some (Provider.buildTriggerName "ns" exArn)) none
      ∈ (Provider.handler none ⟨fun _ _ => some "drop failed", none, none⟩
          (Provider.CfnEvent.deleteE
            (Provider.ResourceProps.trigger exDbNew exTrg exArn) "pid")).1 :=
  ⟨c4_delete_reconciliation.1 none allOkOracle exDbNew "pid" "postgres://new"
      (Provider.sqlCreatePrerequisites "ns_lambda_invoker" "ns" "lambda_invoker"),
   (c4_delete_reconciliation.2 none ⟨fun _ _ => some "drop failed", none, none⟩
      exDbNew exTrg exArn "pid" rfl (by decide) (by decide)).1,
   (c4_delete_reconciliation.2 none ⟨fun _ _ => some "drop failed", none, none⟩
      exDbNew exTrg exArn "pid" rfl (by decide) (by decide)).2⟩

/-! ### Claim C8: layered connection-string resolution -/

/-- C8: the connection string is resolved explicit-value-first, then
the `PG_CONNECTION_STRING` process default, and when both are absent
(or empty) the result is the empty string, upon which the handler
raises a configuration error having performed no action at all except
reporting the failure — in particular no DDL was issued; moreover every
query in every handler trace runs over a non-empty connection string;
and in the deploy-time plugin the `??`-layered resolution behaves the
same for present values, with `withClient` refusing an empty
connection string before opening any session. -/
theorem c8_connection_resolution_layered :
    (∀ (v : String) (envVar : Option String), v ≠ "" →
      Provider.resolveConn (some v) envVar = v) ∧
    (∀ (explicit envVar : Option String), strTruthy explicit = false →
      strTruthy envVar = true → Provider.resolveConn explicit envVar = envVar.getD "") ∧
    (∀ (explicit envVar : Option String), strTruthy explicit = false →
      strTruthy envVar = false → Provider.resolveConn explicit envVar = "") ∧
    (∀ (env : Option String) (o : Provider.Oracle) (ev : Provider.CfnEvent),
      Provider.resolveConn ev.props.database.ConnectionString env = "" →
      ∃ e, Provider.handler env o ev
        = ([Provider.Action.respond none (some e)], .error e)) ∧
    (∀ (env : Option String) (o : Provider.Oracle) (ev : Provider.CfnEvent) (c s : String),
      Provider.Action.query c s ∈ (Provider.handler env o ev).1 → c ≠ "") ∧
    (∀ (s : String) (envVar : Option String),
      Plugin.resolveConnectionString (some s) envVar = s) ∧
    (∀ envVar : Option String, Plugin.resolveConnectionString none envVar = envVar.getD "") ∧
    (∀ (cf : Option String) (act : Except String Unit),
      Plugin.withClient "" cf act
        = ([], .error "Missing Postgres connection string. Set custom.postgres.connectionString or PG_CONNECTION_STRING env var.")) := by
  refine ⟨?_, ?_, ?_, ?_, ?_, ?_, ?_, ?_⟩
  · intro v envVar h
    simp [Provider.resolveConn, strTruthy, h]
  · intro explicit envVar h1 h2
    simp [Provider.resolveConn, h1, h2]
  · intro explicit envVar h1 h2
    simp [Provider.resolveConn, h1, h2]
  · intro env o ev h
    obtain ⟨e, hm⟩ :=
      Provider.mainBranch_conn_missing env o.queryFails o.mainRespondFails ev h
    refine ⟨e, ?_⟩
    have hres : (Provider.mainBranch env o.queryFails o.mainRespondFails ev).result
        = .error e := by rw [hm]
    rw [Provider.handler_error_eq env o ev e hres, hm]
    rfl
  · intro env o ev c s hq
    exact Provider.mainBranch_query_conn_ne env o.queryFails o.mainRespondFails ev c s
      (Provider.query_mem_handler env o ev c s hq)
  · intro v envVar
    rfl
  · intro envVar
    rfl
  · intro cf act
    simp [Plugin.withClient]

/-- C8 witness: the theorem applied at concrete configurations. -/
theorem c8_connection_resolution_witness :
    Provider.resolveConn (some "postgres://explicit") (some "postgres://env")
        = "postgres://explicit" ∧
    Provider.resolveConn (some "") (some "postgres://env")
        = (some "postgres://env").getD "" ∧
    Provider.resolveConn none none = "" ∧
    (∃ e, Provider.handler none allOkOracle
        (Provider.CfnEvent.createE (Provider.ResourceProps.prerequisites
          ⟨none, "ns", "role", "fn"⟩))
      = ([Provider.Action.respond none (some e)], .error e)) ∧
    ("postgres://old" : String) ≠ "" :=
  ⟨c8_connection_resolution_layered.1 "postgres://explicit" (some "postgres://env") (by decide),
   c8_connection_resolution_layered.2.1 (some "") (some "postgres://env") (by decide) (by decide),
   c8_connection_resolution_layered.2.2.1 none none rfl rfl,
   c8_connection_resolution_layered.2.2.2.1 none allOkOracle _ (by decide),
   c8_connection_resolution_layered.2.2.2.2.1 none allOkOracle exUpdateEvent
     "postgres://old" (Provider.sqlDropTrigger "ns_myFn" "public" "events") (by decide)⟩
